import Mathlib

/-!
Verification of the BQ-357 NMEA parser (MakeCode TypeScript).

The repository contains several variants of the same module:
* `main.ts` — merge-by-id GSV catalog, priority-ordered `status()`.
* `src/unnamed/part_000` (first document) — age-first `status()` variant.
* `src/unnamed/part_000` (second document) — `parseSingleLine` variant.
* `src/unnamed/part_001` (first document) — `start()` callback variant,
  sequence-reset GSV catalog.
* `src/unnamed/part_002` — single-list variant whose `parseGSV` filters the
  constellation's satellites on every sentence.

JavaScript string/number semantics are embedded with `List Char` operations
and idealized exact rationals (`ℚ`) in place of IEEE doubles; the code only
performs short decimal arithmetic where the idealization is faithful.
-/

/-- Whitespace test used by the embeddings of JS `trim` and number parsing. -/
def isWsChar (c : Char) : Bool :=
  c = ' ' || c = '\t' || c = '\n' || c = '\r'

/-- Split a character list at every occurrence of `sep`
(the embedding of JS `String.prototype.split` with a one-character
separator, which is the only form the sources use: `line.split(",")`). -/
def splitSepAux (sep : Char) (acc : List Char) : List Char → List (List Char)
  | [] => [acc.reverse]
  | c :: cs =>
    if c = sep then acc.reverse :: splitSepAux sep [] cs
    else splitSepAux sep (c :: acc) cs

/-- JS `line.split(",")`. -/
def jsSplitComma (s : String) : List String :=
  (splitSepAux ',' [] s.data).map String.mk

/-- JS `s.substr(start, len)` for a non-negative start. -/
def jsSubstr (s : String) (start len : Nat) : String :=
  String.mk ((s.data.drop start).take len)

/-- JS `s.substr(start)` (one-argument form).  The sources only call it as
`s.substr(s.length - k)`; JS clamps a negative start to `0`, which matches
truncated `Nat` subtraction. -/
def jsSubstrFrom (s : String) (start : Nat) : String :=
  String.mk (s.data.drop start)

/-- JS `a || b` on strings (the empty string is the only falsy string the
sources produce). -/
def jsOr (a b : String) : String :=
  if a = "" then b else a

/-- JS `s.trim()`. -/
def jsTrim (s : String) : String :=
  String.mk (((s.data.dropWhile isWsChar).reverse.dropWhile isWsChar).reverse)

/-- Leading-prefix test on character lists. -/
def leadsWith : List Char → List Char → Bool
  | [], _ => true
  | _ :: _, [] => false
  | p :: ps, c :: cs => p = c && leadsWith ps cs

/-- Substring containment on character lists (embedding of JS `includes`). -/
def hasSub (pat : List Char) : List Char → Bool
  | [] => leadsWith pat []
  | c :: cs => leadsWith pat (c :: cs) || hasSub pat cs

/-- JS `s.includes(sub)`. -/
def strContains (s sub : String) : Bool :=
  hasSub sub.data s.data

/-- Value of a list of decimal digit characters. -/
def digitListVal (ds : List Char) : Nat :=
  ds.foldl (fun a c => 10 * a + (c.toNat - 48)) 0

/-- Parse the maximal leading run of decimal digits; `none` when there is no
digit (JS `NaN`). -/
def leadingDigitsVal (cs : List Char) : Option Nat :=
  let ds := cs.takeWhile Char.isDigit
  if ds = [] then none else some (digitListVal ds)

/-- Sign-and-digits part of the embedded `parseInt`. -/
def parseIntCore : List Char → Option Int
  | [] => none
  | c :: rest =>
    if c = '-' then (leadingDigitsVal rest).map (fun n : Nat => -(n : Int))
    else if c = '+' then (leadingDigitsVal rest).map (fun n : Nat => (n : Int))
    else (leadingDigitsVal (c :: rest)).map (fun n : Nat => (n : Int))

/-- Embedding of JS `parseInt(s)` (radix 10; the feed never contains `0x`
prefixes): skip whitespace, optional sign, maximal run of digits, `none` for
`NaN`. -/
def parseIntM (s : String) : Option Int :=
  parseIntCore (s.data.dropWhile isWsChar)

/-- Parse an unsigned decimal `digits[.digits]` prefix as an exact rational. -/
def parseUnsignedFloat (cs : List Char) : Option ℚ :=
  let intPart := cs.takeWhile Char.isDigit
  let rest := cs.dropWhile Char.isDigit
  match rest with
  | '.' :: rest2 =>
    let fracPart := rest2.takeWhile Char.isDigit
    if intPart = [] ∧ fracPart = [] then none
    else some ((digitListVal intPart : ℚ) +
      (digitListVal fracPart : ℚ) / ((10 : ℚ) ^ fracPart.length))
  | _ =>
    if intPart = [] then none else some (digitListVal intPart : ℚ)

/-- Embedding of JS `parseFloat(s)` (no exponent forms occur in the feed):
skip whitespace, optional sign, leading decimal literal, `none` for `NaN`. -/
def parseFloatM (s : String) : Option ℚ :=
  match s.data.dropWhile isWsChar with
  | [] => none
  | c :: rest =>
    if c = '-' then (parseUnsignedFloat rest).map (fun q => -q)
    else if c = '+' then parseUnsignedFloat rest
    else parseUnsignedFloat (c :: rest)

/-- JS `Math.round`: round half toward positive infinity. -/
def jsRound (q : ℚ) : ℤ := ⌊q + 1 / 2⌋

/-- Truncation toward zero (JS `x | 0` on an in-range number). -/
def ratTrunc (q : ℚ) : ℤ := if q < 0 then -⌊-q⌋ else ⌊q⌋

/-- Characterization of `jsRound` used to evaluate it on concrete inputs. -/
theorem jsRound_eq_of (q : ℚ) (n : ℤ) (h₁ : (n : ℚ) ≤ q + 1 / 2)
    (h₂ : q + 1 / 2 < n + 1) : jsRound q = n := by
  rw [jsRound, Int.floor_eq_iff]
  · exact ⟨h₁, h₂⟩

/-! ### `main.ts`: state, GSV decoding (merge-by-id), status and accessors -/

structure Satellite where
  id : Int
  elevation : Int
  azimuth : Int
  snr : Int
deriving DecidableEq, Repr

structure MainState where
  lastGGA : String
  lastRMC : String
  lastVTG : String
  lastGSA : String
  lastGSV : String
  gpsSatellites : List Satellite
  bdsSatellites : List Satellite
  lastValidFixMs : Int
deriving DecidableEq, Repr

/-- The initial module state of `main.ts` (all sentence caches empty, both
catalogs empty, `lastValidFixMs = 0`). -/
def mainInit : MainState := ⟨"", "", "", "", "", [], [], 0⟩

/-- The satellite-update step of `parseGSV` in `main.ts`: the inner `for`
loop finds the first index whose id matches and overwrites that entry
(`satellites[pos] = sat`), otherwise the record is appended
(`satellites.push(sat)`). -/
def upsertSat : List Satellite → Satellite → List Satellite
  | [], sat => [sat]
  | s :: rest, sat => if s.id = sat.id then sat :: rest else s :: upsertSat rest sat

/-- Slot loop of `parseGSV` in `main.ts` (`while (idx + 3 < parts.length)`):
only complete 4-field groups are consumed.  A slot is skipped when its id
field is empty or its snr field is empty/whitespace, when the id does not
parse (`NaN > 0` is false), or when `id > 0 && snr > 0` fails. -/
def gsvSlotsMain : List String → List Satellite → List Satellite
  | idRaw :: elvRaw :: azRaw :: snrRaw :: rest, sats =>
    if idRaw = "" ∨ snrRaw = "" ∨ jsTrim snrRaw = "" then gsvSlotsMain rest sats
    else
      match parseIntM idRaw with
      | none => gsvSlotsMain rest sats
      | some id =>
        let elv := (parseIntM elvRaw).getD 0
        let az := (parseIntM azRaw).getD 0
        let snr := (parseIntM snrRaw).getD 0
        if 0 < id ∧ 0 < snr then gsvSlotsMain rest (upsertSat sats ⟨id, elv, az, snr⟩)
        else gsvSlotsMain rest sats
  | _, sats => sats

/-- `parseGSV` of `main.ts`, acting on the already-split fields.  The final
`if (satellites.length > 32) satellites = satellites.slice(-28)` in the
source assigns a fresh array to the LOCAL variable `satellites` (an alias of
the module-level array) and never writes it back, so the module state that
the function commits is the merged list without any trimming. -/
def parseGSVMainFields (fields : List String) (st : MainState) : MainState :=
  if fields.length < 8 then st
  else
    let talker := jsSubstr (fields.headD "") 1 2
    if talker = "BD" ∨ talker = "GB" then
      {st with bdsSatellites := gsvSlotsMain (fields.drop 4) st.bdsSatellites}
    else
      {st with gpsSatellites := gsvSlotsMain (fields.drop 4) st.gpsSatellites}

/-- `parseGSV` of `main.ts` on a raw sentence. -/
def parseGSVMain (line : String) (st : MainState) : MainState :=
  parseGSVMainFields (jsSplitComma line) st

/-- Feed a sequence of sentences to `parseGSV` of `main.ts`. -/
def feedGSVMain (lines : List String) (st : MainState) : MainState :=
  lines.foldl (fun s l => parseGSVMain l s) st

/-- The trim that `main.ts` computes into the dead local
(`satellites.slice(-28)` keeps the most recently appended 28 entries): what
the source's last two lines would commit if the result were written back. -/
def trimCatalog (sats : List Satellite) : List Satellite :=
  if 32 < sats.length then sats.drop (sats.length - 28) else sats

/-- `extractField` of `main.ts`: split the cached sentence and return the
requested field, the empty string when the sentence is empty (falsy) or the
index is out of range. -/
def extractField (sentence : String) (idx : Nat) : String :=
  if sentence = "" then ""
  else
    let p := jsSplitComma sentence
    if idx < p.length then p.getD idx "" else ""

/-- `status()` of `main.ts`.  It returns the status string and also updates
the module variable `lastValidFixMs` when direct evidence is found; the
embedding returns the pair (status, new `lastValidFixMs`), with `now` the
value of `control.millis()`. -/
def statusMain (st : MainState) (now : Int) : String × Int :=
  let fixGGA := extractField st.lastGGA 6
  if fixGGA = "1" ∨ fixGGA = "2" ∨ fixGGA = "4" then ("outdoor", now)
  else
    let fixRMC := extractField st.lastRMC 2
    if fixRMC = "A" then ("outdoor", now)
    else if 12000 < now - st.lastValidFixMs then ("indoor", st.lastValidFixMs)
    else
      let total := st.gpsSatellites.length + st.bdsSatellites.length
      let good := (st.gpsSatellites.filter (fun s => 28 ≤ s.snr)).length +
        (st.bdsSatellites.filter (fun s => 28 ≤ s.snr)).length
      (if 5 ≤ total ∧ 3 ≤ good then "outdoor" else "indoor", st.lastValidFixMs)

/-- Result of a numeric accessor of `main.ts`: the `"(no fix)"` sentinel, a
JS `NaN` propagated from a failed parse, or the numeric value (the source
renders the number into the returned string; the embedding keeps the exact
value). -/
inductive NumResult where
  | noFix : NumResult
  | nan : NumResult
  | val : ℚ → NumResult
deriving DecidableEq

/-- `latitude()` of `main.ts`. -/
def latitudeMain (st : MainState) (now : Int) : NumResult :=
  if (statusMain st now).1 ≠ "outdoor" then .noFix
  else
    let raw := jsOr (extractField st.lastGGA 2) (extractField st.lastRMC 3)
    if raw = "" ∨ raw.data.length < 4 then .noFix
    else
      match parseIntM (jsSubstr raw 0 2), parseFloatM (jsSubstrFrom raw 2) with
      | some deg, some mins =>
        let dec := (deg : ℚ) + mins / 60
        let ns := jsOr (extractField st.lastGGA 3) (extractField st.lastRMC 4)
        .val ((jsRound ((if ns = "S" then -dec else dec) * 1000000) : ℚ) / 1000000)
      | _, _ => .nan

/-- `speedKmh()` of `main.ts` (`1.852` idealized as the exact rational the
double literal denotes up to the feed's two-decimal precision). -/
def speedKmhMain (st : MainState) (now : Int) : NumResult :=
  if (statusMain st now).1 ≠ "outdoor" then .noFix
  else
    let vtg := extractField st.lastVTG 7
    if vtg ≠ "" then
      match parseFloatM vtg with
      | some v => .val ((jsRound (v * 10) : ℚ) / 10)
      | none => .nan
    else
      let rmc := extractField st.lastRMC 7
      if rmc ≠ "" then
        match parseFloatM rmc with
        | some v => .val ((jsRound (v * (1852 / 1000) * 10) : ℚ) / 10)
        | none => .nan
      else .noFix

/-! ### part_000 (first document): the age-first `status()` variant -/

/-- `status()` of part_000 (first document).  Its module state has the same
shape as `main.ts` (its `lastGSA` cache is absent but also never read here).
This variant tests the age of the last valid fix BEFORE looking at the
cached sentences, uses an 8 s timeout, SNR threshold 30 and counts 6/4. -/
def statusV0 (st : MainState) (now : Int) : String :=
  if 8000 < now - st.lastValidFixMs then "indoor"
  else
    let fixGGA := extractField st.lastGGA 6
    if fixGGA = "1" ∨ fixGGA = "2" then "outdoor"
    else if extractField st.lastRMC 2 = "A" then "outdoor"
    else
      let total := st.gpsSatellites.length + st.bdsSatellites.length
      let good := (st.gpsSatellites.filter (fun s => 30 ≤ s.snr)).length +
        (st.bdsSatellites.filter (fun s => 30 ≤ s.snr)).length
      if 6 ≤ total ∧ 4 ≤ good then "outdoor" else "indoor"

/-! ### part_001 (`start` variant) and part_000 (`parseSingleLine` variant) -/

/-- The `Satellite` class of the class-based variants: constellation tag,
PRN, and the three numeric sub-fields.  `parseInt` of a non-numeric,
non-empty sub-field stores JS `NaN`, kept here as `none`. -/
structure SatV2 where
  type : String
  prn : Int
  elevation : Option Int
  azimuth : Option Int
  snr : Option Int
deriving DecidableEq, Repr

/-- Module state of part_001 / part_000 (second document) / part_002:
`none` in `lat`/`lon`/`speedKmh` is a stored JS `NaN`. -/
structure V2State where
  fixed : Bool
  utc : String
  lat : Option ℚ
  ns : String
  lon : Option ℚ
  ew : String
  speedKmh : Option Int
  gpsSatellites : List SatV2
  beidouSatellites : List SatV2
deriving DecidableEq, Repr

/-- Initial module state (`_fixed = false`, `_utc = ""`, numbers zero). -/
def v2Init : V2State := ⟨false, "", some 0, "", some 0, "", some 0, [], []⟩

/-- The RMC branch, textually identical in `start` (part_001) and
`parseSingleLine` (part_000, second document): on validity `"A"` all fix
fields are assigned; on any other validity only `_fixed = false` is set. -/
def applyRMC (fields : List String) (st : V2State) : V2State :=
  if fields.getD 2 "" = "A" then
    {st with fixed := true,
             utc := jsSubstr (fields.getD 1 "") 0 6,
             lat := parseFloatM (jsOr (fields.getD 3 "") "0"),
             ns := jsOr (fields.getD 4 "") "",
             lon := parseFloatM (jsOr (fields.getD 5 "") "0"),
             ew := jsOr (fields.getD 6 "") "",
             speedKmh := (parseFloatM (jsOr (fields.getD 7 "") "0")).map
               (fun knots => jsRound (knots * (1852 / 1000)))}
  else {st with fixed := false}

/-- Slot loop of `parseGSV` in part_001: a slot is skipped when its PRN
field is empty or fails to parse or is not positive; the other three
sub-fields default to `"0"` when empty. -/
def gsvSlotsV2 (system : String) : List String → List SatV2 → List SatV2
  | prnStr :: elevStr :: azimStr :: snrStr :: rest, sats =>
    if prnStr = "" then gsvSlotsV2 system rest sats
    else
      match parseIntM prnStr with
      | none => gsvSlotsV2 system rest sats
      | some prn =>
        if 0 < prn then
          gsvSlotsV2 system rest (sats ++ [⟨system, prn, parseIntM (jsOr elevStr "0"),
            parseIntM (jsOr azimStr "0"), parseIntM (jsOr snrStr "0")⟩])
        else gsvSlotsV2 system rest sats
  | _, sats => sats

/-- `parseGSV` of part_001: the target constellation's list is emptied
(`targetArray.length = 0`) exactly when the message-sequence field parses to
1, then this sentence's slots are appended. -/
def parseGSVv2 (fields : List String) (system : String) (st : V2State) : V2State :=
  if system = "GPS" then
    let base := if parseIntM (fields.getD 2 "") = some 1 then [] else st.gpsSatellites
    {st with gpsSatellites := gsvSlotsV2 system (fields.drop 4) base}
  else
    let base := if parseIntM (fields.getD 2 "") = some 1 then [] else st.beidouSatellites
    {st with beidouSatellites := gsvSlotsV2 system (fields.drop 4) base}

/-- The `onDataReceived` line handler installed by `start` in part_001 (the
line is already trimmed by the excluded I/O layer). -/
def onLineV2 (line : String) (st : V2State) : V2State :=
  if line.data.length < 10 then st
  else
    let fields := jsSplitComma line
    if fields.length < 4 then st
    else
      let f0 := fields.headD ""
      let talkerAndType := jsSubstrFrom f0 (f0.data.length - 5)
      let st1 :=
        if jsSubstrFrom talkerAndType (talkerAndType.data.length - 3) = "RMC" ∧
            10 ≤ fields.length then applyRMC fields st
        else st
      if jsSubstrFrom talkerAndType (talkerAndType.data.length - 3) = "GSV" ∧
          8 ≤ fields.length then
        if strContains f0 "GP" then parseGSVv2 fields "GPS" st1
        else if strContains f0 "BD" ∨ strContains f0 "GB" then parseGSVv2 fields "Beidou" st1
        else st1
      else st1

/-- Slot loop of `parseGSV` in part_000 (second document): every sub-field,
including the PRN, defaults to `"0"` when empty. -/
def gsvSlotsV0B (system : String) : List String → List SatV2 → List SatV2
  | prnS :: elevS :: azS :: snrS :: rest, sats =>
    match parseIntM (jsOr prnS "0") with
    | none => gsvSlotsV0B system rest sats
    | some prn =>
      if 0 < prn then
        gsvSlotsV0B system rest (sats ++ [⟨system, prn, parseIntM (jsOr elevS "0"),
          parseIntM (jsOr azS "0"), parseIntM (jsOr snrS "0")⟩])
      else gsvSlotsV0B system rest sats
  | _, sats => sats

/-- `parseGSV` of part_000 (second document): sequence-reset on message 1,
with the message-sequence field defaulting to `"0"` when empty. -/
def parseGSVv0B (fields : List String) (system : String) (st : V2State) : V2State :=
  if system = "GPS" then
    let base := if parseIntM (jsOr (fields.getD 2 "") "0") = some 1 then []
      else st.gpsSatellites
    {st with gpsSatellites := gsvSlotsV0B system (fields.drop 4) base}
  else
    let base := if parseIntM (jsOr (fields.getD 2 "") "0") = some 1 then []
      else st.beidouSatellites
    {st with beidouSatellites := gsvSlotsV0B system (fields.drop 4) base}

/-- `parseSingleLine` of part_000 (second document); `log()` calls it only
on lines of length ≥ 8. -/
def parseSingleLineV0B (line : String) (st : V2State) : V2State :=
  let fields := jsSplitComma line
  if fields.length < 4 then st
  else
    let f0 := fields.headD ""
    let sentenceId := jsSubstrFrom f0 (f0.data.length - 5)
    let st1 :=
      if jsSubstrFrom sentenceId (sentenceId.data.length - 3) = "RMC" ∧
          10 ≤ fields.length then applyRMC fields st
      else st
    if jsSubstrFrom sentenceId (sentenceId.data.length - 3) = "GSV" ∧
        8 ≤ fields.length then
      if strContains f0 "GP" then parseGSVv0B fields "GPS" st1
      else if strContains f0 "BD" ∨ strContains f0 "GB" then parseGSVv0B fields "Beidou" st1
      else st1
    else st1

/-- Result of a string accessor of the class-based variants: either the
`"undefined"` sentinel or a value. -/
inductive JsOut (α : Type) where
  | undefined : JsOut α
  | val : α → JsOut α
deriving DecidableEq

/-- The two-variant `Status` enum of the class-based variants. -/
inductive StatusE where
  | Indoor : StatusE
  | Outdoor : StatusE
deriving DecidableEq

/-- `status()` of part_001. -/
def statusV2 (st : V2State) : StatusE := if st.fixed then .Outdoor else .Indoor

/-- `utcTime()` of part_001. -/
def utcTimeV2 (st : V2State) : JsOut String :=
  if st.fixed then .val st.utc else .undefined

/-- `speed()` of part_001. -/
def speedV2 (st : V2State) : JsOut (Option Int) :=
  if st.fixed then .val st.speedKmh else .undefined

/-- `latitude()` of part_001: when fixed, the display string
`deg + "° " + minStr + "' " + ns` is abstracted to its numeric components
`(deg, Math.round(min * 10000) / 10000, ns)`.  `_lat | 0` truncates toward
zero with `NaN | 0 = 0`, and `Math.idiv` is truncated division. -/
def latitudeV2 (st : V2State) : JsOut (Int × Option ℚ × String) :=
  if st.fixed then
    let deg := Int.tdiv (ratTrunc (st.lat.getD 0)) 100
    let minv := st.lat.map (fun l => l - (deg : ℚ) * 100)
    .val (deg, minv.map (fun m => ((jsRound (m * 10000) : ℚ) / 10000)), st.ns)
  else .undefined

/-- `longitude()` of part_001, abstracted like `latitudeV2`. -/
def longitudeV2 (st : V2State) : JsOut (Int × Option ℚ × String) :=
  if st.fixed then
    let deg := Int.tdiv (ratTrunc (st.lon.getD 0)) 100
    let minv := st.lon.map (fun l => l - (deg : ℚ) * 100)
    .val (deg, minv.map (fun m => ((jsRound (m * 10000) : ℚ) / 10000)), st.ew)
  else .undefined

/-! ### part_002: single shared satellite list, filter-on-every-sentence -/

/-- Module state of part_002 (one shared satellite list for both
constellations, entries tagged by `type`). -/
structure V3State where
  fixed : Bool
  utc : String
  lat : Option ℚ
  ns : String
  lon : Option ℚ
  ew : String
  speedKmh : Option Int
  satellites : List SatV2
deriving DecidableEq, Repr

/-- Initial module state of part_002. -/
def v3Init : V3State := ⟨false, "", some 0, "", some 0, "", some 0, []⟩

/-- RMC branch of part_002 (`_lat = parseFloat(fields[3])` and
`_ns = fields[4]` with no defaulting, unlike the other variants). -/
def applyRMCv3 (fields : List String) (st : V3State) : V3State :=
  if fields.getD 2 "" = "A" then
    {st with fixed := true,
             utc := jsSubstr (fields.getD 1 "") 0 6,
             lat := parseFloatM (fields.getD 3 ""),
             ns := fields.getD 4 "",
             lon := parseFloatM (fields.getD 5 ""),
             ew := fields.getD 6 "",
             speedKmh := (parseFloatM (jsOr (fields.getD 7 "") "0")).map
               (fun knots => jsRound (knots * (1852 / 1000)))}
  else {st with fixed := false}

/-- Slot loop of `parseGSV` in part_002: only the snr sub-field defaults to
`"0"`. -/
def gsvSlotsV3 (type : String) : List String → List SatV2 → List SatV2
  | pS :: eS :: aS :: sS :: rest, sats =>
    match parseIntM pS with
    | none => gsvSlotsV3 type rest sats
    | some prn =>
      if 0 < prn then
        gsvSlotsV3 type rest (sats ++ [⟨type, prn, parseIntM eS, parseIntM aS,
          parseIntM (jsOr sS "0")⟩])
      else gsvSlotsV3 type rest sats
  | _, sats => sats

/-- `parseGSV` of part_002: the header fields are parsed into unused locals,
and the shared list is cleared of THIS constellation's entries on EVERY
sentence (`_satellites = _satellites.filter(s => s.type !== type)`), with no
test of the message-sequence number. -/
def parseGSVv3 (fields : List String) (type : String) (st : V3State) : V3State :=
  {st with satellites :=
    gsvSlotsV3 type (fields.drop 4) (st.satellites.filter (fun s => s.type ≠ type))}

/-- The `onDataReceived` line handler of part_002. -/
def onLineV3 (line : String) (st : V3State) : V3State :=
  if line.data.length < 10 then st
  else
    let fields := jsSplitComma line
    let f0 := fields.headD ""
    let st1 := if strContains f0 "RMC" ∧ 10 ≤ fields.length then applyRMCv3 fields st else st
    let st2 := if strContains f0 "GPGSV" ∧ 7 ≤ fields.length then parseGSVv3 fields "GPS" st1
      else st1
    if strContains f0 "BDGSV" ∨ strContains f0 "GBGSV" then parseGSVv3 fields "Beidou" st2
    else st2

/-! ### Synthetic GSV bursts: decimal rendering and comma joining -/

/-- Decimal digit character for `d < 10`. -/
def digitCh (d : Nat) : Char := Char.ofNat (48 + d)

/-- Fuel-driven decimal rendering (structural recursion so the kernel can
evaluate it; `natToStr` supplies sufficient fuel). -/
def natDigitsAux : Nat → Nat → List Char
  | 0, _ => []
  | fuel + 1, n =>
    if n < 10 then [digitCh n] else natDigitsAux fuel (n / 10) ++ [digitCh (n % 10)]

/-- Decimal rendering of a natural number. -/
def natToStr (n : Nat) : String := String.mk (natDigitsAux (n + 1) n)

theorem digitCh_isDigit {d : Nat} (h : d < 10) : (digitCh d).isDigit = true := by
  interval_cases d <;> decide

theorem digitCh_toNat {d : Nat} (h : d < 10) : (digitCh d).toNat = 48 + d := by
  interval_cases d <;> decide

theorem not_comma_of_isDigit {c : Char} (h : c.isDigit = true) : ¬ c = ',' := by
  rintro rfl; exact absurd h (by decide)

theorem not_ws_of_isDigit {c : Char} (h : c.isDigit = true) : isWsChar c = false := by
  have h1 : ¬ c = ' ' := by rintro rfl; exact absurd h (by decide)
  have h2 : ¬ c = '\t' := by rintro rfl; exact absurd h (by decide)
  have h3 : ¬ c = '\n' := by rintro rfl; exact absurd h (by decide)
  have h4 : ¬ c = '\r' := by rintro rfl; exact absurd h (by decide)
  simp [isWsChar, h1, h2, h3, h4]

theorem not_minus_of_isDigit {c : Char} (h : c.isDigit = true) : ¬ c = '-' := by
  rintro rfl; exact absurd h (by decide)

theorem not_plus_of_isDigit {c : Char} (h : c.isDigit = true) : ¬ c = '+' := by
  rintro rfl; exact absurd h (by decide)

theorem natDigitsAux_isDigit (n : Nat) :
    ∀ fuel, n < fuel → ∀ c ∈ natDigitsAux fuel n, c.isDigit = true := by
  induction n using Nat.strong_induction_on with
  | _ n ih =>
    intro fuel hf c hc
    match fuel, hf with
    | g + 1, hf =>
      rw [natDigitsAux] at hc
      by_cases h : n < 10
      · rw [if_pos h] at hc
        simp only [List.mem_singleton] at hc
        exact hc ▸ digitCh_isDigit h
      · rw [if_neg h] at hc
        rcases List.mem_append.1 hc with h1 | h1
        · exact ih (n / 10) (Nat.div_lt_self (by omega) (by omega)) g (by omega) c h1
        · simp only [List.mem_singleton] at h1
          exact h1 ▸ digitCh_isDigit (Nat.mod_lt _ (by omega))

theorem natDigitsAux_ne_nil (n : Nat) (fuel : Nat) (hf : n < fuel) :
    natDigitsAux fuel n ≠ [] := by
  match fuel, hf with
  | g + 1, hf =>
    rw [natDigitsAux]
    by_cases h : n < 10
    · simp [h]
    · simp [h]

theorem digitFoldl_natDigitsAux (n : Nat) :
    ∀ fuel, n < fuel → ∀ a : Nat,
      (natDigitsAux fuel n).foldl (fun a c => 10 * a + (c.toNat - 48)) a =
        a * 10 ^ (natDigitsAux fuel n).length + n := by
  induction n using Nat.strong_induction_on with
  | _ n ih =>
    intro fuel hf a
    match fuel, hf with
    | g + 1, hf =>
      rw [natDigitsAux]
      by_cases h : n < 10
      · rw [if_pos h]
        simp [digitCh_toNat h]
        ring
      · rw [if_neg h]
        have hd : n / 10 < n := Nat.div_lt_self (by omega) (by omega)
        rw [List.foldl_append, ih (n / 10) hd g (by omega) a]
        simp [digitCh_toNat (Nat.mod_lt n (show 0 < 10 by omega))]
        rw [Nat.pow_succ]
        have := Nat.div_add_mod n 10
        ring_nf
        omega

theorem takeWhile_isDigit_all {cs : List Char} (h : ∀ c ∈ cs, c.isDigit = true) :
    cs.takeWhile Char.isDigit = cs := by
  induction cs with
  | nil => rfl
  | cons c rest ih =>
    rw [List.takeWhile_cons, if_pos (h c (by simp))]
    rw [ih (fun x hx => h x (by simp [hx]))]

theorem dropWhile_ws_all_digits {cs : List Char} (h : ∀ c ∈ cs, c.isDigit = true) :
    cs.dropWhile isWsChar = cs := by
  cases cs with
  | nil => rfl
  | cons c rest =>
    rw [List.dropWhile_cons, if_neg]
    rw [not_ws_of_isDigit (h c (by simp))]
    simp

/-- `parseIntCore` on a non-empty list of digit characters. -/
theorem parseIntCore_all_digits (cs : List Char) (hne : cs ≠ [])
    (hall : ∀ c ∈ cs, c.isDigit = true) :
    parseIntCore cs = some (digitListVal cs : Int) := by
  match cs, hne with
  | c :: rest, _ =>
    have hc : c.isDigit = true := hall c (by simp)
    rw [parseIntCore, if_neg (not_minus_of_isDigit hc), if_neg (not_plus_of_isDigit hc),
      leadingDigitsVal]
    rw [takeWhile_isDigit_all hall, if_neg (by simp)]
    rfl

/-- Every rendered natural parses back through the embedded `parseInt`. -/
theorem parseIntM_natToStr (n : Nat) : parseIntM (natToStr n) = some (n : Int) := by
  have hdig := natDigitsAux_isDigit n (n + 1) (by omega)
  have hne := natDigitsAux_ne_nil n (n + 1) (by omega)
  rw [parseIntM]
  have hdata : (natToStr n).data = natDigitsAux (n + 1) n := rfl
  rw [hdata, dropWhile_ws_all_digits hdig,
    parseIntCore_all_digits _ hne hdig]
  have := digitFoldl_natDigitsAux n (n + 1) (by omega) 0
  rw [digitListVal, this]
  simp

theorem natToStr_ne_empty (n : Nat) : natToStr n ≠ "" := by
  intro h
  have : (natToStr n).data = [] := by rw [h]
  exact natDigitsAux_ne_nil n (n + 1) (by omega) this

theorem jsTrim_natToStr (n : Nat) : jsTrim (natToStr n) = natToStr n := by
  have hdig := natDigitsAux_isDigit n (n + 1) (by omega)
  rw [jsTrim]
  have hdata : (natToStr n).data = natDigitsAux (n + 1) n := rfl
  rw [hdata, dropWhile_ws_all_digits hdig, dropWhile_ws_all_digits
    (by intro c hc; exact hdig c (List.mem_reverse.1 hc)), List.reverse_reverse]
  rfl

/-- Join character lists with a comma between consecutive elements. -/
def joinCommaChars : List (List Char) → List Char
  | [] => []
  | f :: rest => f ++ (rest.map (fun g => ',' :: g)).flatten

/-- Join strings with commas (builds a synthetic NMEA sentence). -/
def joinComma (fs : List String) : String :=
  String.mk (joinCommaChars (fs.map String.data))

theorem splitSepAux_no_sep {f : List Char} (h : ∀ c ∈ f, ¬ c = ',') :
    ∀ acc, splitSepAux ',' acc f = [acc.reverse ++ f] := by
  induction f with
  | nil => intro acc; simp [splitSepAux]
  | cons c cs ih =>
    intro acc
    rw [splitSepAux, if_neg (h c (by simp)), ih (fun x hx => h x (by simp [hx]))]
    simp

theorem splitSepAux_through {f : List Char} (h : ∀ c ∈ f, ¬ c = ',') :
    ∀ acc rest, splitSepAux ',' acc (f ++ ',' :: rest) =
      (acc.reverse ++ f) :: splitSepAux ',' [] rest := by
  induction f with
  | nil => intro acc rest; simp [splitSepAux]
  | cons c cs ih =>
    intro acc rest
    rw [List.cons_append, splitSepAux, if_neg (h c (by simp)),
      ih (fun x hx => h x (by simp [hx]))]
    simp

/-- Splitting a comma-joined list of comma-free fields recovers the fields. -/
theorem jsSplitComma_joinComma (fs : List String) (hne : fs ≠ [])
    (h : ∀ f ∈ fs, ∀ c ∈ f.data, ¬ c = ',') :
    jsSplitComma (joinComma fs) = fs := by
  induction fs with
  | nil => exact absurd rfl hne
  | cons f rest ih =>
    rw [jsSplitComma, joinComma]
    cases rest with
    | nil =>
      simp only [List.map_cons, List.map_nil, joinCommaChars, List.flatten_nil,
        List.append_nil]
      rw [show (String.mk f.data).data = f.data from rfl,
        splitSepAux_no_sep (h f (by simp))]
      simp
    | cons g rest2 =>
      have hrest : ∀ x ∈ g :: rest2, ∀ c ∈ x.data, ¬ c = ',' := fun x hx =>
        h x (List.mem_cons_of_mem f hx)
      have hjoin : joinCommaChars ((f :: g :: rest2).map String.data) =
          f.data ++ ',' :: joinCommaChars ((g :: rest2).map String.data) := by
        simp [joinCommaChars]
      rw [show (String.mk (joinCommaChars ((f :: g :: rest2).map String.data))).data =
        joinCommaChars ((f :: g :: rest2).map String.data) from rfl, hjoin,
        splitSepAux_through (h f (by simp))]
      have := ih (by simp) hrest
      rw [jsSplitComma, joinComma] at this
      rw [show (String.mk (joinCommaChars ((g :: rest2).map String.data))).data =
        joinCommaChars ((g :: rest2).map String.data) from rfl] at this
      simp only [List.map_cons] at this ⊢
      rw [this]
      simp

/-! ### Synthetic burst construction -/

/-- A synthetic satellite record used to build GSV test bursts. -/
structure SatRec where
  sid : Nat
  selv : Nat
  saz : Nat
  ssnr : Nat
deriving DecidableEq, Repr

/-- The `main.ts` catalog entry a synthetic record decodes to. -/
def SatRec.toSat (r : SatRec) : Satellite := ⟨r.sid, r.selv, r.saz, r.ssnr⟩

/-- The four sentence fields of one slot. -/
def SatRec.slotFields (r : SatRec) : List String :=
  [natToStr r.sid, natToStr r.selv, natToStr r.saz, natToStr r.ssnr]

/-- One synthetic GPS GSV sentence: talker/type field, the three header
fields (total messages, message number, total satellites), then up to four
4-field slots. -/
def mkGSVSentence (tot num n : Nat) (chunk : List SatRec) : String :=
  joinComma (["$GPGSV", natToStr tot, natToStr num, natToStr n] ++
    chunk.flatMap SatRec.slotFields)

/-- Split a record list into consecutive sentences of at most four slots,
numbering the sentences from `num`. -/
def mkBurstAux (tot n : Nat) : Nat → List SatRec → List String
  | num, a :: b :: c :: d :: rest =>
    mkGSVSentence tot num n [a, b, c, d] :: mkBurstAux tot n (num + 1) rest
  | _, [] => []
  | num, xs => [mkGSVSentence tot num n xs]

/-- A synthetic burst of `⌈N/4⌉` GSV sentences describing `recs`. -/
def mkBurst (recs : List SatRec) : List String :=
  mkBurstAux ((recs.length + 3) / 4) recs.length 1 recs

/-! ### Lemmas about the merge-by-id catalog of `main.ts` -/

/-- The ids of a catalog, in order. -/
def idsOf (sats : List Satellite) : List Int := sats.map (fun s => s.id)

theorem mem_idsOf_upsertSat {sats : List Satellite} {sat : Satellite} {x : Int}
    (h : x ∈ idsOf (upsertSat sats sat)) : x = sat.id ∨ x ∈ idsOf sats := by
  induction sats with
  | nil => simpa [upsertSat, idsOf] using h
  | cons s rest ih =>
    rw [upsertSat] at h
    by_cases hs : s.id = sat.id
    · rw [if_pos hs] at h
      rcases (by simpa [idsOf] using h) with h1 | h1
      · exact Or.inl h1
      · exact Or.inr (by simp [idsOf, h1])
    · rw [if_neg hs] at h
      rcases (by simpa [idsOf] using h) with h1 | h1
      · exact Or.inr (by simp [idsOf, h1])
      · rcases ih (by simpa [idsOf] using h1) with h2 | h2
        · exact Or.inl h2
        · exact Or.inr (by simp [idsOf] at h2 ⊢; tauto)

theorem nodup_idsOf_upsertSat {sats : List Satellite} {sat : Satellite}
    (h : (idsOf sats).Nodup) : (idsOf (upsertSat sats sat)).Nodup := by
  induction sats with
  | nil => simp [upsertSat, idsOf]
  | cons s rest ih =>
    rw [upsertSat]
    simp only [idsOf, List.map_cons, List.nodup_cons] at h
    by_cases hs : s.id = sat.id
    · rw [if_pos hs]
      simp only [idsOf, List.map_cons, List.nodup_cons]
      exact ⟨hs ▸ h.1, h.2⟩
    · rw [if_neg hs]
      simp only [idsOf, List.map_cons, List.nodup_cons]
      refine ⟨fun hmem => ?_, ih h.2⟩
      rcases mem_idsOf_upsertSat (by simpa [idsOf] using hmem) with h1 | h1
      · exact hs h1
      · exact h.1 (by simpa [idsOf] using h1)

theorem nodup_idsOf_gsvSlotsMain :
    ∀ (fs : List String) (sats : List Satellite),
      (idsOf sats).Nodup → (idsOf (gsvSlotsMain fs sats)).Nodup := by
  intro fs sats
  induction fs, sats using gsvSlotsMain.induct with
  | case1 idRaw elvRaw azRaw snrRaw rest sats hguard ih =>
    intro h
    rw [gsvSlotsMain, if_pos hguard]
    exact ih h
  | case2 idRaw elvRaw azRaw snrRaw rest sats hguard hparse ih =>
    intro h
    rw [gsvSlotsMain, if_neg hguard, hparse]
    exact ih h
  | case3 idRaw elvRaw azRaw snrRaw rest sats hguard id hparse elv az snr hpos ih =>
    intro h
    rw [gsvSlotsMain, if_neg hguard, hparse]
    simp only
    rw [if_pos hpos]
    exact ih (nodup_idsOf_upsertSat h)
  | case4 idRaw elvRaw azRaw snrRaw rest sats hguard id hparse snr hpos ih =>
    intro h
    rw [gsvSlotsMain, if_neg hguard, hparse]
    simp only
    rw [if_neg hpos]
    exact ih h
  | case5 fs sats hshape =>
    intro h
    rw [gsvSlotsMain.eq_def]
    split
    next idRaw elvRaw azRaw snrRaw rest =>
      exact (hshape idRaw elvRaw azRaw snrRaw rest rfl).elim
    next => exact h

/-- Per-line catalog-id-uniqueness step for `parseGSV` of `main.ts`. -/
theorem nodup_parseGSVMain (line : String) (st : MainState)
    (hg : (idsOf st.gpsSatellites).Nodup) (hb : (idsOf st.bdsSatellites).Nodup) :
    (idsOf (parseGSVMain line st).gpsSatellites).Nodup ∧
      (idsOf (parseGSVMain line st).bdsSatellites).Nodup := by
  simp only [parseGSVMain, parseGSVMainFields]
  split
  · exact ⟨hg, hb⟩
  split
  · exact ⟨hg, nodup_idsOf_gsvSlotsMain _ _ hb⟩
  · exact ⟨nodup_idsOf_gsvSlotsMain _ _ hg, hb⟩

theorem upsertSat_fresh {sats : List Satellite} {sat : Satellite}
    (h : ¬ sat.id ∈ idsOf sats) : upsertSat sats sat = sats ++ [sat] := by
  induction sats with
  | nil => rfl
  | cons s rest ih =>
    have hne : ¬ s.id = sat.id := fun he => h (by simp [idsOf, he])
    rw [upsertSat, if_neg hne, ih (fun hm => h (by simp [idsOf] at hm ⊢; exact Or.inr hm))]
    simp

theorem natToStr_no_comma (n : Nat) : ∀ c ∈ (natToStr n).data, ¬ c = ',' :=
  fun c hc => not_comma_of_isDigit (natDigitsAux_isDigit n (n + 1) (by omega) c hc)

theorem flatMap_slotFields_length (chunk : List SatRec) :
    (chunk.flatMap SatRec.slotFields).length = 4 * chunk.length := by
  induction chunk with
  | nil => simp
  | cons r rest ih => simp [SatRec.slotFields, ih]; omega

theorem idsOf_map_toSat (c : List SatRec) :
    idsOf (c.map SatRec.toSat) = c.map (fun r => (r.sid : Int)) := by
  simp [idsOf, SatRec.toSat]

/-- The slot loop of `main.ts` on a rendered burst fragment of fresh,
positive-id, positive-snr records appends exactly those records. -/
theorem gsvSlotsMain_fresh (recs : List SatRec) :
    ∀ sats : List Satellite,
      (∀ r ∈ recs, 0 < r.sid ∧ 0 < r.ssnr) →
      (∀ r ∈ recs, ¬ ((r.sid : Int) ∈ idsOf sats)) →
      (recs.map SatRec.sid).Nodup →
      gsvSlotsMain (recs.flatMap SatRec.slotFields) sats =
        sats ++ recs.map SatRec.toSat := by
  induction recs with
  | nil =>
    intro sats _ _ _
    simp [gsvSlotsMain]
  | cons r rest ih =>
    intro sats hpos hfresh hnodup
    have hflat : (r :: rest).flatMap SatRec.slotFields =
        natToStr r.sid :: natToStr r.selv :: natToStr r.saz :: natToStr r.ssnr ::
          rest.flatMap SatRec.slotFields := by
      simp [SatRec.slotFields]
    have hguard : ¬ (natToStr r.sid = "" ∨ natToStr r.ssnr = "" ∨
        jsTrim (natToStr r.ssnr) = "") := by
      simp [natToStr_ne_empty, jsTrim_natToStr]
    rw [hflat, gsvSlotsMain, if_neg hguard, parseIntM_natToStr]
    simp only [parseIntM_natToStr, Option.getD_some]
    have hidpos : (0 : Int) < (r.sid : Int) ∧ (0 : Int) < (r.ssnr : Int) := by
      have := hpos r (by simp)
      exact ⟨by exact_mod_cast this.1, by exact_mod_cast this.2⟩
    rw [if_pos hidpos]
    have hsat : (⟨(r.sid : Int), (r.selv : Int), (r.saz : Int), (r.ssnr : Int)⟩ :
        Satellite) = SatRec.toSat r := rfl
    rw [hsat, upsertSat_fresh (hfresh r (by simp))]
    have hnodup2 : r.sid ∉ rest.map SatRec.sid ∧ (rest.map SatRec.sid).Nodup := by
      rw [List.map_cons, List.nodup_cons] at hnodup; exact hnodup
    have hids : idsOf (sats ++ [SatRec.toSat r]) = idsOf sats ++ [(r.sid : Int)] := by
      simp [idsOf, SatRec.toSat]
    rw [ih (sats ++ [SatRec.toSat r])
      (fun x hx => hpos x (by simp [hx]))
      (fun x hx hm => by
        rw [hids] at hm
        rcases List.mem_append.1 hm with h1 | h1
        · exact hfresh x (by simp [hx]) h1
        · have hxr : x.sid = r.sid := by exact_mod_cast List.mem_singleton.1 h1
          exact hnodup2.1 (hxr ▸ List.mem_map_of_mem SatRec.sid hx))
      hnodup2.2]
    simp

/-- `parseGSV` of `main.ts` on one synthetic GPS sentence of fresh records
appends exactly those records to the GPS catalog. -/
theorem parseGSVMain_mkSentence (tot num n : Nat) (chunk : List SatRec)
    (st : MainState) (hne : chunk ≠ [])
    (hpos : ∀ r ∈ chunk, 0 < r.sid ∧ 0 < r.ssnr)
    (hfresh : ∀ r ∈ chunk, ¬ ((r.sid : Int) ∈ idsOf st.gpsSatellites))
    (hnodup : (chunk.map SatRec.sid).Nodup) :
    parseGSVMain (mkGSVSentence tot num n chunk) st =
      {st with gpsSatellites := st.gpsSatellites ++ chunk.map SatRec.toSat} := by
  have hcf : ∀ f ∈ (["$GPGSV", natToStr tot, natToStr num, natToStr n] ++
      chunk.flatMap SatRec.slotFields), ∀ c ∈ f.data, ¬ c = ',' := by
    intro f hf
    rcases List.mem_append.1 hf with h1 | h1
    · simp only [List.mem_cons, List.not_mem_nil, or_false] at h1
      rcases h1 with rfl | rfl | rfl | rfl
      · decide
      · exact natToStr_no_comma tot
      · exact natToStr_no_comma num
      · exact natToStr_no_comma n
    · rcases List.mem_flatMap.1 h1 with ⟨r, _, hfr⟩
      simp only [SatRec.slotFields, List.mem_cons, List.not_mem_nil, or_false] at hfr
      rcases hfr with rfl | rfl | rfl | rfl <;> exact natToStr_no_comma _
  rw [parseGSVMain, mkGSVSentence, jsSplitComma_joinComma _ (by simp) hcf]
  have hlen : ¬ ((["$GPGSV", natToStr tot, natToStr num, natToStr n] ++
      chunk.flatMap SatRec.slotFields).length < 8) := by
    rw [List.length_append, flatMap_slotFields_length]
    have : 0 < chunk.length := List.length_pos.2 hne
    simp only [List.length_cons, List.length_nil]
    omega
  simp only [parseGSVMainFields]
  rw [if_neg hlen]
  simp only [List.cons_append, List.nil_append, List.headD_cons]
  rw [show jsSubstr "$GPGSV" 1 2 = "GP" from rfl]
  rw [if_neg (by decide : ¬ (("GP" : String) = "BD" ∨ ("GP" : String) = "GB"))]
  simp only [List.drop_succ_cons, List.drop_zero]
  rw [gsvSlotsMain_fresh chunk st.gpsSatellites hpos hfresh hnodup]

theorem length_le_three_of_no_four {α : Type} (xs : List α)
    (h : ∀ (a b c d : α) (rest : List α), xs = a :: b :: c :: d :: rest → False) :
    xs.length ≤ 3 := by
  match xs with
  | [] => simp
  | [a] => simp
  | [a, b] => simp
  | [a, b, c] => simp
  | a :: b :: c :: d :: rest => exact (h a b c d rest rfl).elim

theorem mkBurstAux_small (tot n num : Nat) (xs : List SatRec)
    (h1 : ∀ (a b c d : SatRec) (rest : List SatRec),
      xs = a :: b :: c :: d :: rest → False)
    (h2 : xs ≠ []) :
    mkBurstAux tot n num xs = [mkGSVSentence tot num n xs] := by
  match xs, h1, h2 with
  | [a], _, _ => rfl
  | [a, b], _, _ => rfl
  | [a, b, c], _, _ => rfl
  | [], _, h2 => exact absurd rfl h2
  | a :: b :: c :: d :: rest, h1, _ => exact (h1 a b c d rest rfl).elim

theorem mkBurstAux_length (tot n : Nat) (num : Nat) (recs : List SatRec) :
    (mkBurstAux tot n num recs).length = (recs.length + 3) / 4 := by
  induction num, recs using mkBurstAux.induct tot n with
  | case1 num a b c d rest ih =>
    rw [mkBurstAux]
    simp only [List.length_cons, ih]
    omega
  | case2 => simp [mkBurstAux]
  | case3 num xs h1 h2 =>
    have hle : xs.length ≤ 3 :=
      length_le_three_of_no_four xs (fun a b c d rest he => h1 a b c d rest he)
    have hpos : 0 < xs.length := List.length_pos.2 h2
    rw [mkBurstAux_small tot n num xs h1 h2]
    simp only [List.length_cons, List.length_nil]
    omega

/-- Feeding a whole synthetic burst of fresh records into `parseGSV` of
`main.ts` appends exactly those records to the GPS catalog. -/
theorem feedGSVMain_mkBurstAux (tot n : Nat) (num : Nat) (recs : List SatRec) :
    ∀ st : MainState,
      (∀ r ∈ recs, 0 < r.sid ∧ 0 < r.ssnr) →
      (∀ r ∈ recs, ¬ ((r.sid : Int) ∈ idsOf st.gpsSatellites)) →
      (recs.map SatRec.sid).Nodup →
      feedGSVMain (mkBurstAux tot n num recs) st =
        {st with gpsSatellites := st.gpsSatellites ++ recs.map SatRec.toSat} := by
  induction num, recs using mkBurstAux.induct tot n with
  | case1 num a b c d rest ih =>
    intro st hpos hfresh hnodup
    have happ : (([a, b, c, d].map SatRec.sid) ++ rest.map SatRec.sid).Nodup := by
      simpa using hnodup
    have hnodup4 : ([a, b, c, d].map SatRec.sid).Nodup := happ.of_append_left
    have hnodupRest : (rest.map SatRec.sid).Nodup := happ.of_append_right
    have hdisj : List.Disjoint ([a, b, c, d].map SatRec.sid) (rest.map SatRec.sid) :=
      List.disjoint_of_nodup_append happ
    rw [mkBurstAux]
    rw [show feedGSVMain (mkGSVSentence tot num n [a, b, c, d] ::
        mkBurstAux tot n (num + 1) rest) st =
      feedGSVMain (mkBurstAux tot n (num + 1) rest)
        (parseGSVMain (mkGSVSentence tot num n [a, b, c, d]) st) from rfl]
    rw [parseGSVMain_mkSentence tot num n [a, b, c, d] st (by simp)
      (fun r hr => hpos r (by simp at hr ⊢; tauto))
      (fun r hr => hfresh r (by simp at hr ⊢; tauto)) hnodup4]
    have hids : idsOf (st.gpsSatellites ++ [a, b, c, d].map SatRec.toSat) =
        idsOf st.gpsSatellites ++ [a, b, c, d].map (fun r => (r.sid : Int)) := by
      simp [idsOf, SatRec.toSat]
    have hfresh' : ∀ r ∈ rest, ¬ ((r.sid : Int) ∈
        idsOf (st.gpsSatellites ++ [a, b, c, d].map SatRec.toSat)) := by
      intro r hr hm
      rw [hids] at hm
      rcases List.mem_append.1 hm with h1 | h1
      · exact hfresh r (by simp at hr ⊢; tauto) h1
      · rcases List.mem_map.1 h1 with ⟨x, hx, hxe⟩
        have hxr : x.sid = r.sid := by exact_mod_cast hxe
        exact hdisj (List.mem_map_of_mem SatRec.sid hx)
          (hxr ▸ List.mem_map_of_mem SatRec.sid hr)
    rw [ih _ (fun r hr => hpos r (by simp at hr ⊢; tauto)) hfresh' hnodupRest]
    simp [List.append_assoc]
  | case2 =>
    intro st _ _ _
    simp [feedGSVMain, mkBurstAux]
  | case3 num xs h1 h2 =>
    intro st hpos hfresh hnodup
    rw [mkBurstAux_small tot n num xs h1 h2]
    rw [show ∀ s : String, feedGSVMain [s] st = parseGSVMain s st from fun s => rfl]
    exact parseGSVMain_mkSentence tot num n xs st h2 hpos hfresh hnodup

/-! ### Helper lemmas about the fix-status derivers -/

theorem statusMain_gga_direct (st : MainState) (now : Int)
    (h : extractField st.lastGGA 6 = "1" ∨ extractField st.lastGGA 6 = "2" ∨
      extractField st.lastGGA 6 = "4") :
    statusMain st now = ("outdoor", now) := by
  rw [statusMain, if_pos h]

theorem statusMain_rmc_direct (st : MainState) (now : Int)
    (hgga : ¬ (extractField st.lastGGA 6 = "1" ∨ extractField st.lastGGA 6 = "2" ∨
      extractField st.lastGGA 6 = "4"))
    (hrmc : extractField st.lastRMC 2 = "A") :
    statusMain st now = ("outdoor", now) := by
  rw [statusMain, if_neg hgga]
  simp [hrmc]

theorem statusMain_age (st : MainState) (now : Int)
    (hgga : ¬ (extractField st.lastGGA 6 = "1" ∨ extractField st.lastGGA 6 = "2" ∨
      extractField st.lastGGA 6 = "4"))
    (hrmc : ¬ extractField st.lastRMC 2 = "A")
    (hage : 12000 < now - st.lastValidFixMs) :
    statusMain st now = ("indoor", st.lastValidFixMs) := by
  rw [statusMain, if_neg hgga, if_neg hrmc, if_pos hage]

theorem statusMain_quality (st : MainState) (now : Int)
    (hgga : ¬ (extractField st.lastGGA 6 = "1" ∨ extractField st.lastGGA 6 = "2" ∨
      extractField st.lastGGA 6 = "4"))
    (hrmc : ¬ extractField st.lastRMC 2 = "A")
    (hage : ¬ 12000 < now - st.lastValidFixMs) :
    statusMain st now =
      (if 5 ≤ st.gpsSatellites.length + st.bdsSatellites.length ∧
          3 ≤ (st.gpsSatellites.filter (fun s => 28 ≤ s.snr)).length +
            (st.bdsSatellites.filter (fun s => 28 ≤ s.snr)).length
        then "outdoor" else "indoor", st.lastValidFixMs) := by
  rw [statusMain, if_neg hgga, if_neg hrmc, if_neg hage]

theorem statusV0_age_first (st : MainState) (now : Int)
    (hage : 8000 < now - st.lastValidFixMs) : statusV0 st now = "indoor" := by
  rw [statusV0, if_pos hage]

/-! ### Claim theorems -/

/-- Nine GSV sentences carrying 36 distinct satellite ids (four per
sentence), all with positive snr. -/
def gsvOverflowBurst : List String :=
  ["$GPGSV,9,1,36,1,1,1,40,2,1,1,40,3,1,1,40,4,1,1,40",
   "$GPGSV,9,2,36,5,1,1,40,6,1,1,40,7,1,1,40,8,1,1,40",
   "$GPGSV,9,3,36,9,1,1,40,10,1,1,40,11,1,1,40,12,1,1,40",
   "$GPGSV,9,4,36,13,1,1,40,14,1,1,40,15,1,1,40,16,1,1,40",
   "$GPGSV,9,5,36,17,1,1,40,18,1,1,40,19,1,1,40,20,1,1,40",
   "$GPGSV,9,6,36,21,1,1,40,22,1,1,40,23,1,1,40,24,1,1,40",
   "$GPGSV,9,7,36,25,1,1,40,26,1,1,40,27,1,1,40,28,1,1,40",
   "$GPGSV,9,8,36,29,1,1,40,30,1,1,40,31,1,1,40,32,1,1,40",
   "$GPGSV,9,9,36,33,1,1,40,34,1,1,40,35,1,1,40,36,1,1,40"]

/-- C1: the capacity bound is violated by the code.  After this sequence of
GSV decodes from the initial state the GPS catalog holds 36 entries — more
than the claimed bound of 32 — because `satellites = satellites.slice(-28)`
in `main.ts` rebinds a local alias and is never written back to the module
array.  The trim the dead code computes (`trimCatalog`) would have kept the
most recent 28 entries, as the claim states. -/
theorem gsvCapacityExceeded :
    (feedGSVMain gsvOverflowBurst mainInit).gpsSatellites.length = 36 ∧
      32 < (feedGSVMain gsvOverflowBurst mainInit).gpsSatellites.length ∧
      (trimCatalog (feedGSVMain gsvOverflowBurst mainInit).gpsSatellites).length = 28 := by
  have h1 : (feedGSVMain gsvOverflowBurst mainInit).gpsSatellites.length = 36 := by decide
  have h2 : (trimCatalog (feedGSVMain gsvOverflowBurst mainInit).gpsSatellites).length
      = 28 := by decide
  exact ⟨h1, by omega, h2⟩

/-- C10: in the merge-by-id decoder of `main.ts`, a decoded record whose id
is already present overwrites that entry in place, so after any sequence of
GSV decodes each per-constellation catalog contains at most one entry per
satellite id (its id list stays duplicate-free). -/
theorem gsvMergeByIdUnique (lines : List String) (st : MainState)
    (hg : (idsOf st.gpsSatellites).Nodup) (hb : (idsOf st.bdsSatellites).Nodup) :
    (idsOf (feedGSVMain lines st).gpsSatellites).Nodup ∧
      (idsOf (feedGSVMain lines st).bdsSatellites).Nodup := by
  induction lines generalizing st with
  | nil => exact ⟨hg, hb⟩
  | cons l rest ih =>
    have h := nodup_parseGSVMain l st hg hb
    exact ih (parseGSVMain l st) h.1 h.2

/-- Two GSV sentences reporting the same satellite id 7 twice. -/
def dupIdBurst : List String :=
  ["$GPGSV,2,1,08,07,10,020,30", "$GPGSV,2,2,08,07,11,021,31"]

/-- Witness for `gsvMergeByIdUnique` at a concrete feed that reports id 7 in
both sentences: the id lists stay duplicate-free, and the second report
overwrote the first in place. -/
theorem gsvMergeByIdUnique_witness :
    ((idsOf (feedGSVMain dupIdBurst mainInit).gpsSatellites).Nodup ∧
      (idsOf (feedGSVMain dupIdBurst mainInit).bdsSatellites).Nodup) ∧
      (feedGSVMain dupIdBurst mainInit).gpsSatellites = [⟨7, 11, 21, 31⟩] :=
  ⟨gsvMergeByIdUnique dupIdBurst mainInit (by decide) (by decide), by decide⟩

/-- C4 as stated is false on `main.ts`: the synthetic burst describing the
single satellite `(id 7, elevation 10, azimuth 100, snr 0)` — a legitimate
satellite record, since the data model allows snr 0 — yields an empty
catalog rather than exactly one matching entry, because the merge-by-id slot
loop requires `snr > 0`. -/
theorem gsvBurstSnrZeroDropped :
    feedGSVMain (mkBurst [⟨7, 10, 100, 0⟩]) mainInit = mainInit ∧
      mkBurst [⟨7, 10, 100, 0⟩] = ["$GPGSV,1,1,1,7,10,100,0"] :=
  ⟨by decide, by decide⟩

/-- C4 amended: under the merge-by-id policy, a synthetic burst describing N
distinct satellites — each with positive id AND positive snr — split across
`⌈N/4⌉` sentences of 4-field groups yields, from an empty catalog, exactly N
entries whose id, elevation, azimuth and snr equal the input fields. -/
theorem gsvMergeByIdBurst (recs : List SatRec)
    (hpos : ∀ r ∈ recs, 0 < r.sid) (hsnr : ∀ r ∈ recs, 0 < r.ssnr)
    (hnodup : (recs.map SatRec.sid).Nodup) :
    (feedGSVMain (mkBurst recs) mainInit).gpsSatellites = recs.map SatRec.toSat ∧
      (feedGSVMain (mkBurst recs) mainInit).gpsSatellites.length = recs.length ∧
      (mkBurst recs).length = (recs.length + 3) / 4 := by
  have h := feedGSVMain_mkBurstAux ((recs.length + 3) / 4) recs.length 1 recs mainInit
    (fun r hr => ⟨hpos r hr, hsnr r hr⟩)
    (fun r _ hm => by simp [mainInit, idsOf] at hm)
    hnodup
  refine ⟨?_, ?_, mkBurstAux_length _ _ _ _⟩
  · rw [mkBurst, h]; simp [mainInit]
  · rw [mkBurst, h]; simp [mainInit]

/-- Five distinct synthetic satellites (they will span two sentences). -/
def burstRecs : List SatRec :=
  [⟨1, 10, 100, 40⟩, ⟨3, 20, 200, 41⟩, ⟨7, 30, 300, 42⟩, ⟨9, 40, 310, 43⟩,
    ⟨11, 50, 320, 44⟩]

/-- Witness for `gsvMergeByIdBurst`: five satellites over `⌈5/4⌉ = 2`
sentences land as exactly five matching catalog entries. -/
theorem gsvMergeByIdBurst_witness :
    (feedGSVMain (mkBurst burstRecs) mainInit).gpsSatellites =
        burstRecs.map SatRec.toSat ∧
      (feedGSVMain (mkBurst burstRecs) mainInit).gpsSatellites.length =
        burstRecs.length ∧
      (mkBurst burstRecs).length = (burstRecs.length + 3) / 4 :=
  gsvMergeByIdBurst burstRecs (by decide) (by decide) (by decide)

/-- C3 as stated is false on `main.ts`: a GSV slot whose snr sub-field is
empty is rejected outright (`!snrRaw || snrRaw.trim() === ""` skips it), not
accepted with snr defaulted to zero — the sentence
`$GPGSV,1,1,04,05,10,200,` leaves the catalog empty instead of holding
`⟨5, 10, 200, 0⟩`. -/
theorem gsvEmptySnrSlotRejected :
    (parseGSVMain "$GPGSV,1,1,04,05,10,200," mainInit).gpsSatellites = [] ∧
      (parseGSVMain "$GPGSV,1,1,04,05,10,200," mainInit).gpsSatellites ≠
        [⟨5, 10, 200, 0⟩] :=
  ⟨by decide, by decide⟩

/-- C3 amended: slot handling per variant.  In both GSV decoders a slot with
an empty id, an unparsable id, or id ≤ 0 is skipped without affecting the
rest of the sentence.  In the sequence-reset decoder (part_001) an accepted
slot's missing elevation/azimuth/snr sub-fields default to zero.  In the
merge-by-id decoder (`main.ts`) missing elevation/azimuth default to zero,
but a slot whose snr sub-field is empty (or ≤ 0) is rejected. -/
theorem gsvSlotPolicy :
    (∀ (system p : String) (rest : List String) (sats : List SatV2) (v : Int),
        ¬ p = "" → parseIntM p = some v → 0 < v →
        gsvSlotsV2 system (p :: "" :: "" :: "" :: rest) sats =
          gsvSlotsV2 system rest (sats ++ [⟨system, v, some 0, some 0, some 0⟩])) ∧
    (∀ (system e a s : String) (rest : List String) (sats : List SatV2),
        gsvSlotsV2 system ("" :: e :: a :: s :: rest) sats =
          gsvSlotsV2 system rest sats) ∧
    (∀ (system p e a s : String) (rest : List String) (sats : List SatV2) (v : Int),
        ¬ p = "" → parseIntM p = some v → ¬ 0 < v →
        gsvSlotsV2 system (p :: e :: a :: s :: rest) sats =
          gsvSlotsV2 system rest sats) ∧
    (∀ (p s : String) (rest : List String) (sats : List Satellite) (v w : Int),
        ¬ p = "" → ¬ s = "" → ¬ jsTrim s = "" →
        parseIntM p = some v → 0 < v → parseIntM s = some w → 0 < w →
        gsvSlotsMain (p :: "" :: "" :: s :: rest) sats =
          gsvSlotsMain rest (upsertSat sats ⟨v, 0, 0, w⟩)) ∧
    (∀ (p e a : String) (rest : List String) (sats : List Satellite),
        gsvSlotsMain (p :: e :: a :: "" :: rest) sats = gsvSlotsMain rest sats) ∧
    (∀ (e a s : String) (rest : List String) (sats : List Satellite),
        gsvSlotsMain ("" :: e :: a :: s :: rest) sats = gsvSlotsMain rest sats) ∧
    (∀ (p e a s : String) (rest : List String) (sats : List Satellite) (v : Int),
        parseIntM p = some v → ¬ 0 < v →
        gsvSlotsMain (p :: e :: a :: s :: rest) sats = gsvSlotsMain rest sats) := by
  refine ⟨?_, ?_, ?_, ?_, ?_, ?_, ?_⟩
  · intro system p rest sats v hp hv hvpos
    simp only [gsvSlotsV2, if_neg hp, hv]
    rw [if_pos hvpos]
    rfl
  · intro system e a s rest sats
    simp [gsvSlotsV2]
  · intro system p e a s rest sats v hp hv hvneg
    simp only [gsvSlotsV2, if_neg hp, hv]
    rw [if_neg hvneg]
  · intro p s rest sats v w hp hs hts hv hvpos hw hwpos
    have hguard : ¬ (p = "" ∨ s = "" ∨ jsTrim s = "") := by
      simp [hp, hs, hts]
    simp only [gsvSlotsMain, if_neg hguard, hv, hw]
    rw [if_pos ⟨hvpos, by simpa using hwpos⟩]
    rfl
  · intro p e a rest sats
    simp [gsvSlotsMain]
  · intro e a s rest sats
    simp [gsvSlotsMain]
  · intro p e a s rest sats v hv hvneg
    by_cases hguard : p = "" ∨ s = "" ∨ jsTrim s = ""
    · simp only [gsvSlotsMain]
      rw [if_pos hguard]
    · simp only [gsvSlotsMain, if_neg hguard, hv]
      rw [if_neg (fun hc => hvneg hc.1)]

/-- Witness for `gsvSlotPolicy`: part_001 accepts a slot whose three numeric
sub-fields are all empty (defaulting them to 0); `main.ts` rejects a slot
whose snr is empty. -/
theorem gsvSlotPolicy_witness :
    gsvSlotsV2 "GPS" ["05", "", "", ""] [] =
        [⟨"GPS", 5, some 0, some 0, some 0⟩] ∧
      gsvSlotsMain ["05", "10", "200", ""] [] = [] := by
  constructor
  · rw [gsvSlotPolicy.1 "GPS" "05" [] [] 5 (by decide) (by decide) (by decide)]
    rfl
  · rw [gsvSlotPolicy.2.2.2.2.1 "05" "10" "200" [] []]
    rfl

/-- First sentence of a two-sentence part_002 GPS burst (satellites 1, 2). -/
def v3BurstS1 : String := "$GPGSV,2,1,08,01,10,020,30,02,11,021,31"

/-- Second sentence of the burst (satellite 21). -/
def v3BurstS2 : String := "$GPGSV,2,2,08,21,40,083,46"

/-- C6 as stated is false on part_002: its `parseGSV` filters out the
constellation's previous entries on EVERY sentence, so after the complete
two-sentence burst only the last sentence's satellite (id 21) remains —
sentence 2 (sequence number 2) wiped the entries with ids 1 and 2 even
though the claim says a non-1 sequence number leaves the catalog unclear. -/
theorem gsvV3ClearsEverySentence :
    (onLineV3 v3BurstS2 (onLineV3 v3BurstS1 v3Init)).satellites =
        [⟨"GPS", 21, some 40, some 83, some 46⟩] ∧
      ¬ (⟨"GPS", 1, some 10, some 20, some 30⟩ : SatV2) ∈
        (onLineV3 v3BurstS2 (onLineV3 v3BurstS1 v3Init)).satellites :=
  ⟨by decide, by decide⟩

theorem gsvSlotsV3_shift (type : String) :
    ∀ (fs : List String) (sats2 : List SatV2), ∀ sats1 : List SatV2,
      gsvSlotsV3 type fs (sats1 ++ sats2) = sats1 ++ gsvSlotsV3 type fs sats2 := by
  intro fs sats2
  induction fs, sats2 using gsvSlotsV3.induct type with
  | case1 pS eS aS sS rest sats2 hparse ih =>
    intro sats1
    simp only [gsvSlotsV3, hparse]
    exact ih sats1
  | case2 pS eS aS sS rest sats2 prn hparse hpos ih =>
    intro sats1
    simp only [gsvSlotsV3, hparse]
    rw [if_pos hpos, if_pos hpos, List.append_assoc]
    exact ih _
  | case3 pS eS aS sS rest sats2 prn hparse hpos ih =>
    intro sats1
    simp only [gsvSlotsV3, hparse]
    rw [if_neg hpos, if_neg hpos]
    exact ih sats1
  | case4 fs sats2 hshape =>
    intro sats1
    rw [gsvSlotsV3.eq_def, gsvSlotsV3.eq_def]
    split
    next pS eS aS sS rest => exact (hshape pS eS aS sS rest rfl).elim
    next => simp

theorem gsvSlotsV3_append (type : String) (fs : List String) (sats : List SatV2) :
    gsvSlotsV3 type fs sats = sats ++ gsvSlotsV3 type fs [] := by
  have h := gsvSlotsV3_shift type fs [] sats
  rwa [List.append_nil] at h

/-- C6 amended: part_001's decoder clears the sentence's constellation
catalog (and only that one) exactly when the message-sequence field parses
to 1, appending to the existing list otherwise.  part_002's decoder instead
removes the constellation's previous entries on EVERY sentence: its
resulting shared list is always the other constellation's entries followed
by just this sentence's slots, regardless of the sequence number. -/
theorem gsvSequenceResetPolicy :
    (∀ (fields : List String) (st : V2State),
        parseIntM (fields.getD 2 "") = some 1 →
          (parseGSVv2 fields "GPS" st).gpsSatellites =
              gsvSlotsV2 "GPS" (fields.drop 4) [] ∧
            (parseGSVv2 fields "GPS" st).beidouSatellites = st.beidouSatellites ∧
            (parseGSVv2 fields "Beidou" st).beidouSatellites =
              gsvSlotsV2 "Beidou" (fields.drop 4) [] ∧
            (parseGSVv2 fields "Beidou" st).gpsSatellites = st.gpsSatellites) ∧
    (∀ (fields : List String) (st : V2State),
        ¬ parseIntM (fields.getD 2 "") = some 1 →
          (parseGSVv2 fields "GPS" st).gpsSatellites =
              gsvSlotsV2 "GPS" (fields.drop 4) st.gpsSatellites ∧
            (parseGSVv2 fields "Beidou" st).beidouSatellites =
              gsvSlotsV2 "Beidou" (fields.drop 4) st.beidouSatellites) ∧
    (∀ (fields : List String) (type : String) (st : V3State),
        (parseGSVv3 fields type st).satellites =
          st.satellites.filter (fun s => ¬ s.type = type) ++
            gsvSlotsV3 type (fields.drop 4) []) := by
  refine ⟨?_, ?_, ?_⟩
  · intro fields st h
    have h2 : parseIntM (fields[2]?.getD "") = some 1 := by
      simpa [List.getD] using h
    refine ⟨?_, ?_, ?_, ?_⟩ <;> simp [parseGSVv2, h2]
  · intro fields st h
    have h2 : ¬ parseIntM (fields[2]?.getD "") = some 1 := by
      simpa [List.getD] using h
    constructor <;> simp [parseGSVv2, h2]
  · intro fields type st
    rw [parseGSVv3]
    simp only
    rw [gsvSlotsV3_append]

/-- Witness for `gsvSequenceResetPolicy` at a sequence-number-1 sentence
and a state with one old entry per constellation. -/
theorem gsvSequenceResetPolicy_witness :
    ({v2Init with
        gpsSatellites := [⟨"GPS", 9, some 1, some 2, some 3⟩],
        beidouSatellites := [⟨"Beidou", 201, some 1, some 2, some 3⟩]} |>
      parseGSVv2 ["$GPGSV", "2", "1", "08", "05", "10", "020", "30"] "GPS").gpsSatellites =
        gsvSlotsV2 "GPS" ["05", "10", "020", "30"] [] ∧
      gsvSlotsV2 "GPS" ["05", "10", "020", "30"] [] =
        [⟨"GPS", 5, some 10, some 20, some 30⟩] := by
  constructor
  · exact (gsvSequenceResetPolicy.1 ["$GPGSV", "2", "1", "08", "05", "10", "020", "30"]
      _ (by decide)).1
  · decide

/-- The end-to-end RMC example sentence of the spec. -/
def rmcFixLine : String :=
  "$GPRMC,123519,A,4807.038,N,01131.000,E,022.4,084.4,230394,003.1,W*6A"

/-- An RMC sentence with validity `V` (fix lost) and empty data fields. -/
def rmcLossLine : String := "$GPRMC,999999,V,,,,,,,,"

/-- C2 as stated is false on part_001: after a valid fix, decoding an RMC
with validity `V` sets `fixed = false` but leaves the previously stored UTC
(and the other fix fields) in place — the stored state keeps the stale
`"123519"` instead of the claimed empty-string sentinel. -/
theorem rmcFixLossKeepsStaleFields :
    (onLineV2 rmcLossLine (onLineV2 rmcFixLine v2Init)).fixed = false ∧
      (onLineV2 rmcLossLine (onLineV2 rmcFixLine v2Init)).utc = "123519" ∧
      ¬ ("123519" : String) = "" :=
  ⟨by decide, by decide, by decide⟩

/-- The sentence-type string the part_001 handler computes for a line (last
three characters of the last five characters of field 0). -/
def lineSentenceType (line : String) : String :=
  let f0 := (jsSplitComma line).headD ""
  let tt := jsSubstrFrom f0 (f0.data.length - 5)
  jsSubstrFrom tt (tt.data.length - 3)

/-- C2 amended: decoding an RMC whose validity field is not `"A"` sets
`fixed := false` and leaves every other state field unchanged (stale values
stay in the stored state), but every accessor of part_001 returns the
`"undefined"` sentinel (status `Indoor`) whenever `fixed = false`, so a
stale value is never observable through the accessor API. -/
theorem rmcInvalidOnlyClearsFixed :
    (∀ (line : String) (st : V2State),
        ¬ line.data.length < 10 → ¬ (jsSplitComma line).length < 4 →
        lineSentenceType line = "RMC" → 10 ≤ (jsSplitComma line).length →
        ¬ (jsSplitComma line).getD 2 "" = "A" →
        onLineV2 line st = {st with fixed := false}) ∧
    (∀ (fields : List String) (st : V2State),
        ¬ fields.getD 2 "" = "A" →
        applyRMC fields st = {st with fixed := false}) ∧
    (∀ st : V2State, st.fixed = false →
        statusV2 st = StatusE.Indoor ∧ utcTimeV2 st = JsOut.undefined ∧
        latitudeV2 st = JsOut.undefined ∧ longitudeV2 st = JsOut.undefined ∧
        speedV2 st = JsOut.undefined) := by
  refine ⟨?_, ?_, ?_⟩
  · intro line st h10 h4 hType hlen hA
    simp only [lineSentenceType] at hType
    simp only [onLineV2]
    rw [if_neg h10, if_neg h4, hType]
    rw [if_neg (show ¬ (("RMC" : String) = "GSV" ∧ 8 ≤ (jsSplitComma line).length) from
      fun hc => absurd hc.1 (by decide))]
    rw [if_pos (show ("RMC" : String) = "RMC" ∧ 10 ≤ (jsSplitComma line).length from
      ⟨rfl, hlen⟩)]
    rw [applyRMC, if_neg hA]
  · intro fields st hA
    rw [applyRMC, if_neg hA]
  · intro st hfix
    refine ⟨?_, ?_, ?_, ?_, ?_⟩ <;>
      simp [statusV2, utcTimeV2, latitudeV2, longitudeV2, speedV2, hfix]

/-- Witness for `rmcInvalidOnlyClearsFixed` at a concrete fix-loss sentence
decoded on top of a concrete valid-fix state. -/
theorem rmcInvalidOnlyClearsFixed_witness :
    onLineV2 rmcLossLine (onLineV2 rmcFixLine v2Init) =
        {onLineV2 rmcFixLine v2Init with fixed := false} ∧
      utcTimeV2 {v2Init with utc := "123519"} = JsOut.undefined :=
  ⟨rmcInvalidOnlyClearsFixed.1 rmcLossLine (onLineV2 rmcFixLine v2Init)
      (by decide) (by decide) (by decide) (by decide) (by decide),
    (rmcInvalidOnlyClearsFixed.2.2 {v2Init with utc := "123519"} rfl).2.1⟩

/-- A `main.ts`-shaped state whose RMC cache carries validity `A` but whose
last valid fix is stale (`lastValidFixMs = 0`). -/
def staleDirectFixState : MainState := {mainInit with lastRMC := rmcFixLine}

/-- C5 as stated is false on part_000 (first document): with direct RMC
evidence (`validity = A`) in the cache but an elapsed age of 20 s, its
deriver answers `"indoor"` — the age rule is evaluated BEFORE the direct
evidence, while the claim requires direct evidence to win. -/
theorem statusAgeFirstOverridesDirectEvidence :
    extractField staleDirectFixState.lastRMC 2 = "A" ∧
      statusV0 staleDirectFixState 20000 = "indoor" :=
  ⟨by decide, by decide⟩

/-- C5 amended: `main.ts`'s deriver follows the claimed strict priority —
GGA quality 1/2/4 or RMC validity `A` yields `outdoor` and refreshes the
last-valid-fix time (even when the 12 s timeout has elapsed); only absent
direct evidence does an age above 12 s yield `indoor`; only absent both do
the satellite-quality counts decide.  part_000's deriver instead tests its
8 s age rule FIRST, so cached direct evidence cannot override an elapsed
timeout there. -/
theorem fixStatusPriority :
    (∀ (st : MainState) (now : Int),
        (extractField st.lastGGA 6 = "1" ∨ extractField st.lastGGA 6 = "2" ∨
          extractField st.lastGGA 6 = "4") →
        statusMain st now = ("outdoor", now)) ∧
    (∀ (st : MainState) (now : Int),
        ¬ (extractField st.lastGGA 6 = "1" ∨ extractField st.lastGGA 6 = "2" ∨
          extractField st.lastGGA 6 = "4") →
        extractField st.lastRMC 2 = "A" →
        statusMain st now = ("outdoor", now)) ∧
    (∀ (st : MainState) (now : Int),
        ¬ (extractField st.lastGGA 6 = "1" ∨ extractField st.lastGGA 6 = "2" ∨
          extractField st.lastGGA 6 = "4") →
        ¬ extractField st.lastRMC 2 = "A" →
        12000 < now - st.lastValidFixMs →
        (statusMain st now).1 = "indoor") ∧
    (∀ (st : MainState) (now : Int),
        ¬ (extractField st.lastGGA 6 = "1" ∨ extractField st.lastGGA 6 = "2" ∨
          extractField st.lastGGA 6 = "4") →
        ¬ extractField st.lastRMC 2 = "A" →
        ¬ 12000 < now - st.lastValidFixMs →
        (statusMain st now).1 =
          (if 5 ≤ st.gpsSatellites.length + st.bdsSatellites.length ∧
              3 ≤ (st.gpsSatellites.filter (fun s => 28 ≤ s.snr)).length +
                (st.bdsSatellites.filter (fun s => 28 ≤ s.snr)).length
            then "outdoor" else "indoor")) ∧
    (∀ (st : MainState) (now : Int),
        8000 < now - st.lastValidFixMs → statusV0 st now = "indoor") := by
  refine ⟨?_, ?_, ?_, ?_, ?_⟩
  · intro st now h
    exact statusMain_gga_direct st now h
  · intro st now hgga hrmc
    exact statusMain_rmc_direct st now hgga hrmc
  · intro st now hgga hrmc hage
    rw [statusMain_age st now hgga hrmc hage]
  · intro st now hgga hrmc hage
    rw [statusMain_quality st now hgga hrmc hage]
  · intro st now hage
    exact statusV0_age_first st now hage

/-- Witness for `fixStatusPriority`: on the same stale state (direct RMC
evidence cached, age 20 s) `main.ts` answers `outdoor` and refreshes the
timestamp, while part_000 answers `indoor`. -/
theorem fixStatusPriority_witness :
    statusMain staleDirectFixState 20000 = ("outdoor", 20000) ∧
      statusV0 staleDirectFixState 20000 = "indoor" :=
  ⟨fixStatusPriority.2.1 staleDirectFixState 20000 (by decide) (by decide),
    fixStatusPriority.2.2.2.2 staleDirectFixState 20000 (by decide)⟩

theorem jsOr_empty (b : String) : jsOr "" b = b := by
  rw [jsOr, if_pos rfl]

/-- C7: for a state whose GGA cache is empty and whose stored RMC has
validity `A`, a latitude field of at least four characters whose first two
characters parse as the integer degrees and whose remainder parses as the
decimal minutes, the `main.ts` latitude accessor returns the value
`degrees + minutes/60`, negated exactly when the hemisphere field is `"S"`,
rounded to six decimal places (`Math.round(dec * 1000000) / 1000000`). -/
theorem rmcLatitudeDecimalDegrees (st : MainState) (now : Int) (deg : Int) (mins : ℚ)
    (hgga : st.lastGGA = "")
    (hrmc : extractField st.lastRMC 2 = "A")
    (hlen : 4 ≤ (extractField st.lastRMC 3).data.length)
    (hdeg : parseIntM (jsSubstr (extractField st.lastRMC 3) 0 2) = some deg)
    (hmin : parseFloatM (jsSubstrFrom (extractField st.lastRMC 3) 2) = some mins) :
    latitudeMain st now =
      NumResult.val ((jsRound ((if extractField st.lastRMC 4 = "S"
          then -((deg : ℚ) + mins / 60) else (deg : ℚ) + mins / 60) * 1000000) : ℚ)
        / 1000000) := by
  have hgga6 : ¬ (extractField st.lastGGA 6 = "1" ∨ extractField st.lastGGA 6 = "2" ∨
      extractField st.lastGGA 6 = "4") := by
    rw [hgga]; decide
  have hstat : (statusMain st now).1 = "outdoor" := by
    rw [statusMain_rmc_direct st now hgga6 hrmc]
  simp only [latitudeMain]
  rw [if_neg (fun hc => hc hstat), hgga,
    show extractField "" 2 = "" from rfl, show extractField "" 3 = "" from rfl,
    jsOr_empty, jsOr_empty]
  rw [if_neg (show ¬ (extractField st.lastRMC 3 = "" ∨
      (extractField st.lastRMC 3).data.length < 4) from ?_)]
  · simp only [hdeg, hmin]
  · rintro (h1 | h1)
    · rw [h1] at hlen
      exact absurd hlen (by decide)
    · omega

/-- Witness for `rmcLatitudeDecimalDegrees`: the stored field `"4807.038"`
with hemisphere `"N"` yields `48.117300` (`48117300 / 10^6`). -/
theorem rmcLatitudeDecimalDegrees_witness :
    latitudeMain staleDirectFixState 0 = NumResult.val ((48117300 : ℚ) / 1000000) := by
  have hmin : parseFloatM (jsSubstrFrom (extractField staleDirectFixState.lastRMC 3) 2) =
      some ((3519 : ℚ) / 500) := by
    have h0 : parseFloatM (jsSubstrFrom (extractField staleDirectFixState.lastRMC 3) 2) =
        some (((7 : ℕ) : ℚ) + ((38 : ℕ) : ℚ) / 10 ^ 3) := rfl
    rw [h0]; norm_num
  have h := rmcLatitudeDecimalDegrees staleDirectFixState 0 48 ((3519 : ℚ) / 500)
    rfl (by decide) (by decide) (by decide) hmin
  rw [h, if_neg (by decide : ¬ extractField staleDirectFixState.lastRMC 4 = "S"),
    jsRound_eq_of ((((48 : ℤ) : ℚ) + (3519 : ℚ) / 500 / 60) * 1000000) 48117300
      (by norm_num) (by norm_num)]
  norm_num

/-- The end-to-end RMC sentence with a speed field of exactly 10.0 knots. -/
def rmc10Line : String :=
  "$GPRMC,123519,A,4807.038,N,01131.000,E,10.0,084.4,230394,003.1,W*6A"

/-- C8 as stated is false on part_001: its RMC decoder stores
`Math.round(knots * 1.852)` — an integer — so 10.0 knots decodes to
19 km/h, not the claimed one-decimal value 18.5. -/
theorem speedIntegerRoundingV2 :
    (onLineV2 rmc10Line v2Init).speedKmh = some 19 ∧
      ¬ ((19 : ℚ) = (jsRound ((10 : ℚ) * (1852 / 1000) * 10) : ℚ) / 10) := by
  constructor
  · have h : (onLineV2 rmc10Line v2Init).speedKmh =
        some (jsRound ((((10 : ℕ) : ℚ) + ((0 : ℕ) : ℚ) / 10 ^ 1) * (1852 / 1000))) := rfl
    rw [h, jsRound_eq_of _ 19 (by norm_num) (by norm_num)]
  · rw [jsRound_eq_of ((10 : ℚ) * (1852 / 1000) * 10) 185 (by norm_num) (by norm_num)]
    norm_num

/-- C8 amended: both decoders multiply the knots value by 1.852, but they
round at different precisions.  The `main.ts` accessor (RMC path: no VTG
speed cached) rounds to one decimal place
(`Math.round(v * 1.852 * 10) / 10`, so 10.0 knots → 18.5 km/h); part_001's
RMC decoder rounds to the nearest integer (`Math.round(knots * 1.852)`, so
10.0 knots → 19 km/h). -/
theorem speedKnotsToKmh :
    (∀ (st : MainState) (now : Int) (v : ℚ),
        (statusMain st now).1 = "outdoor" →
        extractField st.lastVTG 7 = "" →
        ¬ extractField st.lastRMC 7 = "" →
        parseFloatM (extractField st.lastRMC 7) = some v →
        speedKmhMain st now =
          NumResult.val ((jsRound (v * (1852 / 1000) * 10) : ℚ) / 10)) ∧
    (∀ (fields : List String) (st : V2State) (k : ℚ),
        fields.getD 2 "" = "A" →
        parseFloatM (jsOr (fields.getD 7 "") "0") = some k →
        (applyRMC fields st).speedKmh = some (jsRound (k * (1852 / 1000)))) := by
  constructor
  · intro st now v hstat hvtg hrmc hv
    simp only [speedKmhMain]
    rw [if_neg (fun hc => hc hstat), hvtg,
      if_neg (show ¬ ¬ ("" : String) = "" from fun hc => hc rfl),
      if_pos hrmc]
    simp only [hv]
  · intro fields st k hA hk
    rw [applyRMC, if_pos hA]
    show (parseFloatM (jsOr (fields.getD 7 "") "0")).map
      (fun knots => jsRound (knots * (1852 / 1000))) = _
    rw [hk]
    rfl

/-- Witness for `speedKnotsToKmh`: 10.0 knots decodes to 18.5 km/h through
the `main.ts` accessor and to 19 km/h through part_001's decoder. -/
theorem speedKnotsToKmh_witness :
    speedKmhMain {mainInit with lastRMC := rmc10Line} 0 =
        NumResult.val ((185 : ℚ) / 10) ∧
      (applyRMC (jsSplitComma rmc10Line) v2Init).speedKmh = some 19 := by
  have hpf : parseFloatM (extractField ({mainInit with lastRMC := rmc10Line}).lastRMC 7) =
      some (10 : ℚ) := by
    have h0 : parseFloatM (extractField ({mainInit with lastRMC := rmc10Line}).lastRMC 7) =
        some (((10 : ℕ) : ℚ) + ((0 : ℕ) : ℚ) / 10 ^ 1) := rfl
    rw [h0]; norm_num
  constructor
  · have h := speedKnotsToKmh.1 {mainInit with lastRMC := rmc10Line} 0 10
      (by decide) (by decide) (by decide) hpf
    rw [h, jsRound_eq_of ((10 : ℚ) * (1852 / 1000) * 10) 185 (by norm_num) (by norm_num)]
    norm_num
  · have hpf2 : parseFloatM (jsOr ((jsSplitComma rmc10Line).getD 7 "") "0") =
        some (10 : ℚ) := by
      have h0 : parseFloatM (jsOr ((jsSplitComma rmc10Line).getD 7 "") "0") =
          some (((10 : ℕ) : ℚ) + ((0 : ℕ) : ℚ) / 10 ^ 1) := rfl
      rw [h0]; norm_num
    have h := speedKnotsToKmh.2 (jsSplitComma rmc10Line) v2Init 10 (by decide) hpf2
    rw [h, jsRound_eq_of ((10 : ℚ) * (1852 / 1000)) 19 (by norm_num) (by norm_num)]

/-- C9: decoding the spec's example RMC sentence from ANY prior state yields
`fixed = true`, `utc = "123519"` and `speed_kmh = 41` (22.4 × 1.852 = 41.48
rounded), in both the part_001 line handler and the part_000
`parseSingleLine` decoder. -/
theorem rmcExampleEndToEnd (st2 st0 : V2State) :
    ((onLineV2 rmcFixLine st2).fixed = true ∧
      (onLineV2 rmcFixLine st2).utc = "123519" ∧
      (onLineV2 rmcFixLine st2).speedKmh = some 41) ∧
    ((parseSingleLineV0B rmcFixLine st0).fixed = true ∧
      (parseSingleLineV0B rmcFixLine st0).utc = "123519" ∧
      (parseSingleLineV0B rmcFixLine st0).speedKmh = some 41) := by
  refine ⟨⟨rfl, rfl, ?_⟩, ⟨rfl, rfl, ?_⟩⟩
  · have h : (onLineV2 rmcFixLine st2).speedKmh =
        some (jsRound ((((22 : ℕ) : ℚ) + ((4 : ℕ) : ℚ) / 10 ^ 1) * (1852 / 1000))) := rfl
    rw [h, jsRound_eq_of _ 41 (by norm_num) (by norm_num)]
  · have h : (parseSingleLineV0B rmcFixLine st0).speedKmh =
        some (jsRound ((((22 : ℕ) : ℚ) + ((4 : ℕ) : ℚ) / 10 ^ 1) * (1852 / 1000))) := rfl
    rw [h, jsRound_eq_of _ 41 (by norm_num) (by norm_num)]

